import Mathlib

/-!
# Verification of the resume vector-search core

Shallow embedding of the candidate-search pipeline:
`scripts/core/query_parser.py` (GeminiQueryParser),
`scripts/core/intelligent_search.py` (IntelligentSearchEngine),
`scripts/core/match_explainer.py` (MatchExplainer), and
`scripts/core/gemini_embedder_prod.py` (GeminiEmbedder).

Python machine floats are modelled as exact rationals (ℚ); dynamic JSON
dictionaries as an inductive `JVal`; calls to external services (the Gemini /
OpenAI language models, the Gemini embedding API, the Qdrant vector store)
as oracle parameters returning `Except Unit _` — an `Except.error` models the
call raising a Python exception, and the embedded control flow mirrors the
`try/except` structure of the source line by line.
-/

/-! ## String helpers: Python `str.lower()` and the `in` substring operator -/

/-- Python `s.lower()` modelled character-wise. -/
def pyLower (s : String) : String :=
  ⟨s.data.map Char.toLower⟩

/-- Python `needle in hay` on strings: substring occurrence test. -/
def isSubOf (n : List Char) : List Char → Bool
  | [] => n.isEmpty
  | c :: t => n.isPrefixOf (c :: t) || isSubOf n t

/-- `needle in hay` at the `String` level. -/
def strContains (hay needle : String) : Bool :=
  isSubOf needle.data hay.data

/-! ## `IntelligentSearchEngine._calculate_skills_match`
(`scripts/core/intelligent_search.py`, lines 197–221). -/

/--
```python
if not required_skills or not candidate_skills:
    return 0.0
candidate_skills_lower = candidate_skills.lower()
matched = sum(1 for skill in required_skills
              if skill.lower() in candidate_skills_lower)
return matched / len(required_skills)
```
-/
def calculate_skills_match (candidate_skills : String)
    (required_skills : List String) : ℚ :=
  if required_skills = [] ∨ candidate_skills = "" then 0
  else
    let matched : ℕ := (required_skills.countP
      (fun skill => strContains (pyLower candidate_skills) (pyLower skill)))
    (matched : ℚ) / (required_skills.length : ℚ)

/-- C7: the skills-match score is the fraction of required skills occurring as
case-insensitive substrings of the candidate skills text; it lies in [0,1],
is 0 when the required list or the candidate text is empty, and is exactly 1
when (both are non-empty and) every required skill occurs. -/
theorem skills_match_contract (s : String) (r : List String) :
    (0 ≤ calculate_skills_match s r ∧ calculate_skills_match s r ≤ 1) ∧
    ((r = [] ∨ s = "") → calculate_skills_match s r = 0) ∧
    (r ≠ [] → s ≠ "" →
      calculate_skills_match s r =
        ((r.countP (fun skill => strContains (pyLower s) (pyLower skill)) : ℚ) /
          (r.length : ℚ))) ∧
    (r ≠ [] → s ≠ "" →
      (∀ skill ∈ r, strContains (pyLower s) (pyLower skill) = true) →
      calculate_skills_match s r = 1) := by
  unfold calculate_skills_match
  by_cases h : r = [] ∨ s = ""
  · refine ⟨⟨by simp [h], by simp [h]⟩, by simp [h], ?_, ?_⟩ <;>
      · intro hr hs
        exact absurd h (by tauto)
  · push_neg at h
    obtain ⟨hr, hs⟩ := h
    have hcond : ¬(r = [] ∨ s = "") := by tauto
    have hlen : 0 < (r.length : ℚ) := by
      have : 0 < r.length := List.length_pos.mpr hr
      exact_mod_cast this
    refine ⟨⟨?_, ?_⟩, ?_, ?_, ?_⟩
    · simp only [hcond, if_false]
      positivity
    · simp only [hcond, if_false]
      rw [div_le_one hlen]
      exact_mod_cast List.countP_le_length _
    · intro hor; exact absurd hor hcond
    · intro _ _; simp [hcond]
    · intro _ _ hall
      simp only [hcond, if_false]
      have hcount : r.countP
          (fun skill => strContains (pyLower s) (pyLower skill)) = r.length := by
        apply List.countP_eq_length.mpr
        intro a ha
        simpa using hall a ha
      rw [hcount]
      exact div_self (ne_of_gt hlen)

/-- Witness for `skills_match_contract`: at a concrete input whose single
required skill occurs case-insensitively, the score evaluates to 1. -/
theorem skills_match_contract_witness :
    ((["Python"] ≠ ([] : List String)) ∧ ("python, django" ≠ "") ∧
      (∀ skill ∈ ["Python"],
        strContains (pyLower "python, django") (pyLower skill) = true)) ∧
    calculate_skills_match "python, django" ["Python"] = 1 :=
  ⟨⟨by decide, by decide, by decide⟩,
    (skills_match_contract "python, django" ["Python"]).2.2.2
      (by decide) (by decide) (by decide)⟩

/-! ## Data model for the search engine

The parsed-query filter record (`parsed['filters']`, the nine documented keys
plus `max_date_applied` which `_build_filter` also reads), the record payload
stored in the vector store, and ranked candidates. Each Python float is a ℚ. -/

/-- The sparse filter record consumed by `_build_filter` and `search`. -/
structure Filters where
  min_experience : Option ℚ
  max_experience : Option ℚ
  location : Option String
  education_level : Option String
  required_skills : Option (List String)
  seniority_keywords : Option (List String)
  desired_job_titles : Option (List String)
  target_companies : Option (List String)
  min_date_applied : Option Int
  max_date_applied : Option Int
deriving DecidableEq, Repr

/-- The all-null filter record. -/
def Filters.empty : Filters :=
  ⟨none, none, none, none, none, none, none, none, none, none⟩

/-- Python truthiness of `filters.get(key)` for a string-valued field. -/
def truthyStr : Option String → Bool
  | none => false
  | some s => s ≠ ""

/-- Python truthiness of `filters.get(key)` for a list-valued field. -/
def truthyList : Option (List String) → Bool
  | none => false
  | some l => l ≠ []

/-- A parsed query as consumed by `IntelligentSearchEngine.search`. -/
structure ParsedQuery where
  search_intent : String
  filters : Filters
deriving DecidableEq, Repr

/-- The metadata payload stored with each point in the vector store. -/
structure Payload where
  id : String
  full_name : String
  email : String
  job_title : String
  total_years_experience : ℚ
  longest_tenure_years : ℚ
  location : String
  education_level : String
  current_company : String
  current_stage : String
  resume_url : String
  date_applied : Int
  skills_extracted : String
  resume_full_text : String
deriving DecidableEq, Repr

/-- One nearest-neighbour hit returned by the vector store for one facet. -/
structure Hit where
  id : ℕ
  score : ℚ
  payload : Payload
deriving DecidableEq, Repr

/-- A (partially built) ranked candidate dictionary from `search`. -/
structure Cand where
  id : ℕ
  semantic_score : ℚ
  vector_scores : List (String × ℚ)
  payload : Payload
  skills_match_score : ℚ
  final_score : ℚ
deriving DecidableEq, Repr

/-! ## `IntelligentSearchEngine._build_filter`
(`scripts/core/intelligent_search.py`, lines 84–195). -/

/-- A Qdrant filter condition tree (`FieldCondition`/`Filter(should=...)`). -/
inductive QCond where
  /-- `FieldCondition(key, range=Range(gte=float(v)))` -/
  | rangeGteF (key : String) (v : ℚ)
  /-- `FieldCondition(key, range=Range(lte=float(v)))` -/
  | rangeLteF (key : String) (v : ℚ)
  /-- `FieldCondition(key, range=Range(gte=int(v)))` -/
  | rangeGteI (key : String) (v : Int)
  /-- `FieldCondition(key, range=Range(lte=int(v)))` -/
  | rangeLteI (key : String) (v : Int)
  /-- `FieldCondition(key, match=MatchValue(value=v))` -/
  | matchValue (key : String) (v : String)
  /-- `FieldCondition(key, match=MatchText(text=v))` -/
  | matchTextC (key : String) (v : String)
  /-- `Filter(should=cs)` nested as a condition -/
  | shouldGroup (cs : List QCond)

/-- A top-level Qdrant `Filter(must=conditions)`. -/
structure QFilter where
  must : List QCond

/-- The `conditions` list accumulated by `_build_filter`, in source order. -/
def build_conditions (f : Filters) : List QCond :=
  (match f.min_experience with
    | some v => [QCond.rangeGteF "total_years_experience" v]
    | none => []) ++
  (match f.max_experience with
    | some v => [QCond.rangeLteF "total_years_experience" v]
    | none => []) ++
  (match f.location with
    | some s => if s ≠ "" then [QCond.matchValue "location" s] else []
    | none => []) ++
  (match f.education_level with
    | some s => if s ≠ "" then [QCond.matchValue "education_level" s] else []
    | none => []) ++
  (match f.min_date_applied with
    | some v => [QCond.rangeGteI "date_applied" v]
    | none => []) ++
  (match f.max_date_applied with
    | some v => [QCond.rangeLteI "date_applied" v]
    | none => []) ++
  (match f.desired_job_titles with
    | some ts =>
      match ts with
      | [] => []
      | [t] => [QCond.matchTextC "job_title" t]
      | _ => [QCond.shouldGroup (ts.map (fun t => QCond.matchTextC "job_title" t))]
    | none => []) ++
  (match f.target_companies with
    | some cs =>
      if cs ≠ [] then
        [QCond.shouldGroup (cs.flatMap (fun c =>
          [QCond.matchTextC "company_names" c,
           QCond.matchTextC "current_company" c]))]
      else []
    | none => [])

/-- `_build_filter`: `None` when no condition was produced, else
`Filter(must=conditions)`. -/
def build_filter (f : Filters) : Option QFilter :=
  match build_conditions f with
  | [] => none
  | c :: cs => some ⟨c :: cs⟩

/-- C10: numeric bounds (`min_experience`, `max_experience`,
`min_date_applied`, `max_date_applied`) are compiled with an `is not None`
test — a value of 0 still produces a range condition — while string- and
list-valued fields are compiled with a Python truthiness test; consequently
the compiled filter is `None` exactly when all four numeric bounds are null
and all four string/list fields are falsy, so empty strings and empty lists
compile to no predicate while `min_experience = 0.0` compiles to one. -/
theorem build_filter_truthiness (f : Filters) :
    (build_filter f = none ↔
      (f.min_experience = none ∧ f.max_experience = none ∧
       f.min_date_applied = none ∧ f.max_date_applied = none ∧
       truthyStr f.location = false ∧ truthyStr f.education_level = false ∧
       truthyList f.desired_job_titles = false ∧
       truthyList f.target_companies = false)) ∧
    (∀ v, f.min_experience = some v →
      QCond.rangeGteF "total_years_experience" v ∈ build_conditions f) ∧
    (∀ v, f.min_date_applied = some v →
      QCond.rangeGteI "date_applied" v ∈ build_conditions f) ∧
    build_filter { Filters.empty with
      location := some "", education_level := some "",
      desired_job_titles := some [], target_companies := some [] } = none ∧
    (build_filter { Filters.empty with min_experience := some 0 }).isSome
      = true := by
  have hbn : build_filter f = none ↔ build_conditions f = [] := by
    unfold build_filter
    cases h : build_conditions f <;> simp
  refine ⟨?_, ?_, ?_, rfl, rfl⟩
  · rw [hbn]
    rcases f with ⟨mne, mxe, loc, edu, rs, sk, djt, tc, mnd, mxd⟩
    unfold build_conditions
    simp only [List.append_eq_nil]
    cases mne <;> cases mxe <;> cases mnd <;> cases mxd <;>
      rcases loc with _ | s₁ <;> rcases edu with _ | s₂ <;>
      rcases djt with _ | (_ | ⟨t, _ | ⟨t₂, ts⟩⟩) <;>
      rcases tc with _ | (_ | ⟨c, cs⟩) <;>
      simp [truthyStr, truthyList]
  · intro v hv
    unfold build_conditions
    rw [hv]
    simp
  · intro v hv
    unfold build_conditions
    rw [hv]
    simp

/-- Witness for `build_filter_truthiness`: `min_experience = 0.0` produces a
range condition in the compiled predicate. -/
theorem build_filter_truthiness_witness :
    ({ Filters.empty with min_experience := some 0 } : Filters).min_experience
        = some 0 ∧
    QCond.rangeGteF "total_years_experience" 0 ∈
      build_conditions { Filters.empty with min_experience := some 0 } :=
  ⟨rfl, (build_filter_truthiness
    { Filters.empty with min_experience := some 0 }).2.1 0 rfl⟩

/-! ## `IntelligentSearchEngine.search`
(`scripts/core/intelligent_search.py`, lines 223–356).

External effects are oracle parameters: `embed` models
`self._embed_query` ’s call to the Gemini embedding API, and `store` models
`self.client.search(collection, (facet, vector), filter, limit, threshold)`
against Qdrant; `Except.error ()` models the call raising. The source wraps
neither call in a `try/except`, so errors propagate out of `search`. -/

/-- `WEIGHTS = {"resume": 0.5, "skills": 0.3, "tasks": 0.2}` (iteration in
insertion order). -/
def WEIGHTS : List (String × ℚ) :=
  [("resume", 1/2), ("skills", 3/10), ("tasks", 1/5)]

/-- Python dict assignment `vector_scores[name] = score`. -/
def setVS (l : List (String × ℚ)) (k : String) (v : ℚ) : List (String × ℚ) :=
  if l.any (fun p => p.1 = k) then
    l.map (fun p => if p.1 = k then (k, v) else p)
  else l ++ [(k, v)]

/-- One iteration of the merge loop over a facet's results：
```python
if point_id not in all_results:
    all_results[point_id] = {"id": .., "semantic_score": score*weight,
                             "vector_scores": {name: score}, "payload": ..}
else:
    all_results[point_id]["semantic_score"] += score * weight
    all_results[point_id]["vector_scores"][name] = score
```
`all_results` is an insertion-ordered dict, modelled as a list of `Cand`. -/
def mergeStep (facet : String) (w : ℚ) (acc : List Cand) (h : Hit) :
    List Cand :=
  if acc.any (fun c => c.id = h.id) then
    acc.map (fun c =>
      if c.id = h.id then
        { c with semantic_score := c.semantic_score + h.score * w,
                 vector_scores := setVS c.vector_scores facet h.score }
      else c)
  else
    acc ++ [{ id := h.id, semantic_score := h.score * w,
              vector_scores := [(facet, h.score)], payload := h.payload,
              skills_match_score := 0, final_score := 0 }]

/-- The full fusion merge over a list of `((facet, weight), results)`
triples, accumulating into the ordered dict `acc`. -/
def mergeAll (rs : List ((String × ℚ) × List Hit)) (acc : List Cand) :
    List Cand :=
  rs.foldl (fun a p => p.2.foldl (mergeStep p.1.1 p.1.2) a) acc

/-- The per-facet store queries of the search loop, in `WEIGHTS` order:
`client.search(collection, (name, query_vector), query_filter, limit*2,
score_threshold=0.3)`; the first raising call aborts the whole `search`. -/
def runFacets (store : String → List ℚ → Option QFilter → ℕ → ℚ →
      Except Unit (List Hit))
    (v : List ℚ) (flt : Option QFilter) (limit : ℕ) :
    List (String × ℚ) → Except Unit (List ((String × ℚ) × List Hit))
  | [] => Except.ok []
  | (n, w) :: rest => do
    let results ← store n v flt (limit * 2) (3/10)
    let tail ← runFacets store v flt limit rest
    return ((n, w), results) :: tail

/-- Descending order on `final_score`, the sort key of
`candidates.sort(key=lambda x: x["final_score"], reverse=True)`. -/
def candGE (a b : Cand) : Prop := b.final_score ≤ a.final_score

instance : DecidableRel candGE := fun a b =>
  inferInstanceAs (Decidable (b.final_score ≤ a.final_score))

instance : IsTotal Cand candGE :=
  ⟨fun a b => le_total b.final_score a.final_score⟩

instance : IsTrans Cand candGE :=
  ⟨fun _ _ _ hab hbc => le_trans hbc hab⟩

/-- Step 4 of `search`: the re-ranking stage.
```python
if enable_reranking and filters.get('required_skills'):
    for candidate in candidates:
        ... skills_match ...
        candidate['final_score'] = semantic * 0.7 + skills_match * 0.3
else:
    for candidate in candidates:
        candidate['skills_match_score'] = 0.0
        candidate['final_score'] = candidate['semantic_score']
```
-/
def rerankStage (pq : ParsedQuery) (enable_reranking : Bool)
    (candidates : List Cand) : List Cand :=
  if enable_reranking && truthyList pq.filters.required_skills then
    candidates.map (fun c =>
      let skills_match := calculate_skills_match c.payload.skills_extracted
        (pq.filters.required_skills.getD [])
      { c with skills_match_score := skills_match,
               final_score := c.semantic_score * (7/10) +
                 skills_match * (3/10) })
  else
    candidates.map (fun c =>
      { c with skills_match_score := 0,
               final_score := c.semantic_score })

/-- `IntelligentSearchEngine.search(parsed_query, limit, enable_reranking)`. -/
def search (embed : String → Except Unit (List ℚ))
    (store : String → List ℚ → Option QFilter → ℕ → ℚ →
      Except Unit (List Hit))
    (pq : ParsedQuery) (limit : ℕ) (enable_reranking : Bool) :
    Except Unit (List Cand) := do
  let query_vector ← embed pq.search_intent
  let query_filter := build_filter pq.filters
  let facetResults ← runFacets store query_vector query_filter limit WEIGHTS
  let candidates := mergeAll facetResults []
  let ranked := rerankStage pq enable_reranking candidates
  let sorted := ranked.insertionSort candGE
  return sorted.take limit

/-- Inversion of a successful `search` call into its pipeline stages. -/
theorem search_ok_elim {e : String → Except Unit (List ℚ)}
    {st : String → List ℚ → Option QFilter → ℕ → ℚ → Except Unit (List Hit)}
    {pq : ParsedQuery} {l : ℕ} {rk : Bool} {res : List Cand}
    (h : search e st pq l rk = Except.ok res) :
    ∃ v rs, e pq.search_intent = Except.ok v ∧
      runFacets st v (build_filter pq.filters) l WEIGHTS = Except.ok rs ∧
      res = (List.insertionSort candGE
        (rerankStage pq rk (mergeAll rs []))).take l := by
  unfold search at h
  cases he : e pq.search_intent with
  | error u =>
    rw [he] at h
    simp [Bind.bind, Except.bind] at h
  | ok v =>
    rw [he] at h
    simp only [Bind.bind, Except.bind] at h
    cases hr : runFacets st v (build_filter pq.filters) l WEIGHTS with
    | error u =>
      rw [hr] at h
      simp at h
    | ok rs =>
      rw [hr] at h
      simp only [Pure.pure, Except.pure, Except.ok.injEq] at h
      exact ⟨v, rs, rfl, hr, h.symm⟩

/-- C5: a successful `search` with positive `limit` returns at most `limit`
candidates, sorted in non-increasing order of `final_score`. -/
theorem search_sorted_and_bounded
    (e : String → Except Unit (List ℚ))
    (st : String → List ℚ → Option QFilter → ℕ → ℚ → Except Unit (List Hit))
    (pq : ParsedQuery) (l : ℕ) (rk : Bool) (res : List Cand)
    (_hpos : 0 < l) (h : search e st pq l rk = Except.ok res) :
    res.length ≤ l ∧ res.Sorted candGE := by
  obtain ⟨v, rs, -, -, hres⟩ := search_ok_elim h
  subst hres
  constructor
  · rw [List.length_take]
    exact min_le_left _ _
  · exact (List.sorted_insertionSort candGE _).sublist
      (List.take_sublist _ _)

/-- C6: when re-ranking is disabled or no non-empty required-skills list was
parsed, every returned candidate has `final_score = semantic_score` and
`skills_match_score = 0`. -/
theorem search_semantic_only
    (e : String → Except Unit (List ℚ))
    (st : String → List ℚ → Option QFilter → ℕ → ℚ → Except Unit (List Hit))
    (pq : ParsedQuery) (l : ℕ) (rk : Bool) (res : List Cand)
    (hcond : ¬(rk = true ∧ truthyList pq.filters.required_skills = true))
    (h : search e st pq l rk = Except.ok res) :
    ∀ c ∈ res, c.final_score = c.semantic_score ∧
      c.skills_match_score = 0 := by
  obtain ⟨v, rs, -, -, hres⟩ := search_ok_elim h
  subst hres
  intro c hc
  have hc1 : c ∈ List.insertionSort candGE
      (rerankStage pq rk (mergeAll rs [])) :=
    (List.take_sublist _ _).mem hc
  have hc2 : c ∈ rerankStage pq rk (mergeAll rs []) :=
    (List.mem_insertionSort candGE).mp hc1
  have hif : (rk && truthyList pq.filters.required_skills) = false := by
    cases hrk : rk with
    | false => simp
    | true =>
      cases hts : truthyList pq.filters.required_skills with
      | false => simp
      | true => exact absurd ⟨hrk, hts⟩ hcond
  unfold rerankStage at hc2
  rw [hif] at hc2
  simp only [Bool.false_eq_true, if_false, List.mem_map] at hc2
  obtain ⟨a, -, ha⟩ := hc2
  subst ha
  exact ⟨rfl, rfl⟩

/-- A concrete stored payload used by the concrete witnesses below. -/
def payload0 : Payload :=
  ⟨"a1", "", "", "", 0, 0, "", "", "", "", "", 0, "python", ""⟩

/-- A concrete embedding oracle that always succeeds. -/
def embedC : String → Except Unit (List ℚ) := fun _ => Except.ok [1]

/-- A concrete vector-store oracle returning one hit on every facet. -/
def storeC : String → List ℚ → Option QFilter → ℕ → ℚ →
    Except Unit (List Hit) := fun _ _ _ _ _ => Except.ok [⟨1, 2/5, payload0⟩]

/-- A concrete parsed query with no filters. -/
def pq0 : ParsedQuery := ⟨"civil engineer", Filters.empty⟩

/-- The result of `search embedC storeC pq0 5 true`. -/
def res0 : List Cand :=
  [⟨1, 2/5, [("resume", 2/5), ("skills", 2/5), ("tasks", 2/5)],
    payload0, 0, 2/5⟩]

/-- Evaluation of `search` at the concrete oracles. -/
theorem search_concrete_eval :
    search embedC storeC pq0 5 true = Except.ok res0 := by
  norm_num +decide [search, embedC, storeC, pq0, Bind.bind, Except.bind,
    runFacets, WEIGHTS, mergeAll, mergeStep, setVS, rerankStage,
    Filters.empty, truthyList, payload0, res0, List.insertionSort,
    List.orderedInsert, Pure.pure, Except.pure, List.foldl, List.any,
    List.map, List.take]

/-- Witness for `search_sorted_and_bounded` at concrete oracles. -/
theorem search_sorted_and_bounded_witness :
    (0 < 5 ∧ search embedC storeC pq0 5 true = Except.ok res0) ∧
    (res0.length ≤ 5 ∧ res0.Sorted candGE) :=
  ⟨⟨by decide, search_concrete_eval⟩,
    search_sorted_and_bounded embedC storeC pq0 5 true res0
      (by decide) search_concrete_eval⟩

/-- Witness for `search_semantic_only` at concrete oracles (the query has no
required-skills filter, so the semantic-only branch runs). -/
theorem search_semantic_only_witness :
    (¬(true = true ∧ truthyList pq0.filters.required_skills = true) ∧
      search embedC storeC pq0 5 true = Except.ok res0) ∧
    (∀ c ∈ res0, c.final_score = c.semantic_score ∧
      c.skills_match_score = 0) :=
  ⟨⟨by decide, search_concrete_eval⟩,
    search_semantic_only embedC storeC pq0 5 true res0
      (by decide) search_concrete_eval⟩

/-! ## Fusion accounting (for the additivity / order-invariance property) -/

/-- The fused `semantic_score` recorded for id `i` in the merged dict
(`0` when `i` is absent). -/
def scoreOf (cs : List Cand) (i : ℕ) : ℚ :=
  ((cs.find? (fun c => c.id = i)).map Cand.semantic_score).getD 0

/-- The contribution of one facet result set to id `i`:
`similarity * weight` when `i` appears in that facet's results, else `0`. -/
def facetContrib (i : ℕ) (p : (String × ℚ) × List Hit) : ℚ :=
  ((p.2.find? (fun h => h.id = i)).map (fun h => h.score * p.1.2)).getD 0

theorem scoreOf_mergeStep_ne (n : String) (w : ℚ) (acc : List Cand)
    (h : Hit) (i : ℕ) (hne : h.id ≠ i) :
    scoreOf (mergeStep n w acc h) i = scoreOf acc i := by
  unfold mergeStep scoreOf
  split
  · rw [List.find?_map]
    have hcomp : ((fun c : Cand => decide (c.id = i)) ∘
        (fun c : Cand => if c.id = h.id then
          { c with semantic_score := c.semantic_score + h.score * w,
                   vector_scores := setVS c.vector_scores n h.score }
        else c)) = fun c : Cand => decide (c.id = i) := by
      funext c
      by_cases hc : c.id = h.id <;> simp [hc]
    rw [hcomp]
    cases hf : acc.find? (fun c => c.id = i) with
    | none => simp
    | some c =>
      have hci : c.id = i := by simpa using List.find?_some hf
      have hcne : ¬(c.id = h.id) := by rw [hci]; exact fun hx => hne hx.symm
      simp [hcne]
  · rw [List.find?_append]
    cases hf : acc.find? (fun c => c.id = i) with
    | none => simp [hne]
    | some c => simp

theorem scoreOf_mergeStep_eq (n : String) (w : ℚ) (acc : List Cand)
    (h : Hit) (i : ℕ) (heq : h.id = i) :
    scoreOf (mergeStep n w acc h) i = scoreOf acc i + h.score * w := by
  subst heq
  unfold mergeStep scoreOf
  split
  case isTrue hany =>
    rw [List.find?_map]
    have hcomp : ((fun c : Cand => decide (c.id = h.id)) ∘
        (fun c : Cand => if c.id = h.id then
          { c with semantic_score := c.semantic_score + h.score * w,
                   vector_scores := setVS c.vector_scores n h.score }
        else c)) = fun c : Cand => decide (c.id = h.id) := by
      funext c
      by_cases hc : c.id = h.id <;> simp [hc]
    rw [hcomp]
    cases hf : acc.find? (fun c => c.id = h.id) with
    | none =>
      rw [List.find?_eq_none] at hf
      rw [List.any_eq_true] at hany
      obtain ⟨c, hc, hcid⟩ := hany
      exact absurd hcid (by simpa using hf c hc)
    | some c =>
      have hci : c.id = h.id := by simpa using List.find?_some hf
      simp [hci]
  case isFalse hany =>
    rw [List.find?_append]
    have hf : acc.find? (fun c => c.id = h.id) = none := by
      rw [List.find?_eq_none]
      intro c hc
      have : ∀ c ∈ acc, ¬(c.id = h.id) := by
        simpa [List.any_eq_true] using hany
      simpa using this c hc
    rw [hf]
    simp

theorem scoreOf_foldHits (n : String) (w : ℚ) (hits : List Hit)
    (acc : List Cand) (i : ℕ) (hnd : (hits.map Hit.id).Nodup) :
    scoreOf (hits.foldl (mergeStep n w) acc) i
      = scoreOf acc i + facetContrib i ((n, w), hits) := by
  induction hits generalizing acc with
  | nil => simp [facetContrib]
  | cons h t ih =>
    rw [List.map_cons] at hnd
    have hpair := List.nodup_cons.mp hnd
    have hnotin : h.id ∉ t.map Hit.id := hpair.1
    have hnd' : (t.map Hit.id).Nodup := hpair.2
    by_cases hid : h.id = i
    · subst hid
      rw [List.foldl_cons, ih _ hnd',
        scoreOf_mergeStep_eq n w acc h h.id rfl]
      have ht0 : facetContrib h.id ((n, w), t) = 0 := by
        unfold facetContrib
        have hfn : t.find? (fun x => x.id = h.id) = none := by
          rw [List.find?_eq_none]
          intro x hx
          simp only [decide_eq_true_eq]
          intro hxe
          exact hnotin (hxe ▸ List.mem_map_of_mem Hit.id hx)
        simp [hfn]
      have hhead : facetContrib h.id ((n, w), h :: t) = h.score * w := by
        unfold facetContrib
        rw [List.find?_cons_of_pos _ (by simp)]
        rfl
      rw [ht0, hhead]
      ring
    · rw [List.foldl_cons, ih _ hnd',
        scoreOf_mergeStep_ne n w acc h i hid]
      have : facetContrib i ((n, w), h :: t) = facetContrib i ((n, w), t) := by
        unfold facetContrib
        rw [List.find?_cons_of_neg _ (by simp [hid])]
      rw [this]

theorem scoreOf_mergeAll (rs : List ((String × ℚ) × List Hit))
    (acc : List Cand) (i : ℕ)
    (hnd : ∀ p ∈ rs, (p.2.map Hit.id).Nodup) :
    scoreOf (mergeAll rs acc) i
      = scoreOf acc i + (rs.map (facetContrib i)).sum := by
  induction rs generalizing acc with
  | nil => simp [mergeAll]
  | cons p t ih =>
    have h1 : (p.2.map Hit.id).Nodup := hnd p (List.mem_cons_self _ _)
    have h2 : ∀ q ∈ t, (q.2.map Hit.id).Nodup :=
      fun q hq => hnd q (List.mem_cons_of_mem _ hq)
    show scoreOf (mergeAll t (p.2.foldl (mergeStep p.1.1 p.1.2) acc)) i = _
    rw [ih _ h2, scoreOf_foldHits p.1.1 p.1.2 p.2 acc i h1]
    simp [add_assoc]

/-- C4: the facet weights are fixed at resume 0.5, skills 0.3, tasks 0.2 and
sum to 1; for per-facet result sets with distinct point ids, each record's
fused semantic score is the sum over the facets in which it appears of
`similarity * weight` (absence contributing zero, with no renormalization);
and the fused score of every record is invariant under permuting the order
in which the facet result sets are merged. -/
theorem fusion_additive_order_invariant :
    (WEIGHTS = [("resume", 1/2), ("skills", 3/10), ("tasks", 1/5)] ∧
      (WEIGHTS.map Prod.snd).sum = 1) ∧
    (∀ rs : List ((String × ℚ) × List Hit),
      (∀ p ∈ rs, (p.2.map Hit.id).Nodup) →
      ∀ i, scoreOf (mergeAll rs []) i = (rs.map (facetContrib i)).sum) ∧
    (∀ rs rs' : List ((String × ℚ) × List Hit),
      rs.Perm rs' → (∀ p ∈ rs, (p.2.map Hit.id).Nodup) →
      ∀ i, scoreOf (mergeAll rs []) i = scoreOf (mergeAll rs' []) i) := by
  refine ⟨⟨rfl, by norm_num [WEIGHTS]⟩, ?_, ?_⟩
  · intro rs hnd i
    rw [scoreOf_mergeAll rs [] i hnd]
    simp [scoreOf]
  · intro rs rs' hperm hnd i
    have hnd' : ∀ p ∈ rs', (p.2.map Hit.id).Nodup :=
      fun p hp => hnd p (hperm.mem_iff.mpr hp)
    rw [scoreOf_mergeAll rs [] i hnd, scoreOf_mergeAll rs' [] i hnd']
    have hsum : (rs.map (facetContrib i)).sum
        = (rs'.map (facetContrib i)).sum :=
      (hperm.map (facetContrib i)).sum_eq
    rw [hsum]

/-- A concrete resume-facet result set for the fusion witness. -/
def facetA : (String × ℚ) × List Hit :=
  (("resume", 1/2), [⟨1, 2/5, payload0⟩])

/-- A concrete skills-facet result set for the fusion witness. -/
def facetB : (String × ℚ) × List Hit :=
  (("skills", 3/10), [⟨1, 3/5, payload0⟩, ⟨2, 1/2, payload0⟩])

/-- Witness for `fusion_additive_order_invariant`: on two concrete facet
result sets, merged in either order, record 1 gets the same fused score. -/
theorem fusion_additive_order_invariant_witness :
    (([facetA, facetB].Perm [facetB, facetA]) ∧
      (∀ p ∈ [facetA, facetB], (p.2.map Hit.id).Nodup)) ∧
    scoreOf (mergeAll [facetA, facetB] []) 1
      = scoreOf (mergeAll [facetB, facetA] []) 1 :=
  ⟨⟨List.Perm.swap facetB facetA [], by decide⟩,
    (fusion_additive_order_invariant).2.2 [facetA, facetB] [facetB, facetA]
      (List.Perm.swap facetB facetA []) (by decide) 1⟩

/-- A concrete vector-store oracle whose resume-facet query raises while the
other facets would return hits. -/
def storeFailResume : String → List ℚ → Option QFilter → ℕ → ℚ →
    Except Unit (List Hit) := fun n _ _ _ _ =>
  if n = "resume" then Except.error ()
  else Except.ok [⟨1, 2/5, payload0⟩]

/-- C3 counterexample: with the resume-facet query failing and the other two
facets returning matches, `search` raises instead of fusing the remaining
facet results — the source wraps `client.search` in no `try/except`. -/
theorem facet_failure_not_tolerated :
    storeFailResume "resume" [1] (build_filter pq0.filters) 10 (3/10)
        = Except.error () ∧
    storeFailResume "skills" [1] (build_filter pq0.filters) 10 (3/10)
        = Except.ok [⟨1, 2/5, payload0⟩] ∧
    search embedC storeFailResume pq0 5 true = Except.error () := by
  refine ⟨rfl, rfl, ?_⟩
  unfold search
  simp [embedC, Bind.bind, Except.bind, runFacets, WEIGHTS, storeFailResume]

theorem runFacets_error_of_mem
    {st : String → List ℚ → Option QFilter → ℕ → ℚ → Except Unit (List Hit)}
    {v : List ℚ} {flt : Option QFilter} {l : ℕ} :
    ∀ ws : List (String × ℚ),
    (∃ p ∈ ws, st p.1 v flt (l * 2) (3/10) = Except.error ()) →
    runFacets st v flt l ws = Except.error () := by
  intro ws
  induction ws with
  | nil =>
    rintro ⟨p, hp, -⟩
    simp at hp
  | cons q rest ih =>
    rintro ⟨p, hp, hfail⟩
    rcases List.mem_cons.mp hp with rfl | hp'
    · obtain ⟨n, w⟩ := p
      unfold runFacets
      rw [hfail]
      simp [Bind.bind, Except.bind]
    · obtain ⟨n, w⟩ := q
      unfold runFacets
      cases hst : st n v flt (l * 2) (3/10) with
      | error u =>
        cases u
        simp [Bind.bind, Except.bind, hst]
      | ok results =>
        simp only [Bind.bind, Except.bind]
        rw [ih ⟨p, hp', hfail⟩]

theorem runFacets_ok_all
    {st : String → List ℚ → Option QFilter → ℕ → ℚ → Except Unit (List Hit)}
    {v : List ℚ} {flt : Option QFilter} {l : ℕ} :
    ∀ (ws : List (String × ℚ)) (rs : List ((String × ℚ) × List Hit)),
    runFacets st v flt l ws = Except.ok rs →
    ∀ p ∈ ws, ∃ hits, st p.1 v flt (l * 2) (3/10) = Except.ok hits := by
  intro ws
  induction ws with
  | nil =>
    intro rs _ p hp
    simp at hp
  | cons q rest ih =>
    obtain ⟨n, w⟩ := q
    intro rs h p hp
    unfold runFacets at h
    cases hst : st n v flt (l * 2) (3/10) with
    | error u =>
      rw [hst] at h
      simp [Bind.bind, Except.bind] at h
    | ok results =>
      rw [hst] at h
      simp only [Bind.bind, Except.bind] at h
      cases hr : runFacets st v flt l rest with
      | error u =>
        rw [hr] at h
        simp at h
      | ok tail =>
        rcases List.mem_cons.mp hp with rfl | hp'
        · exact ⟨results, hst⟩
        · exact ih tail hr p hp'

/-- C3 amended: a vector-store query failure on any of the three facets
aborts the whole `search` call (the exception propagates to the caller
instead of the facet being treated as zero matches), and conversely a
successful `search` call means the embedding call and every facet's store
query succeeded — fusion with the remaining facets never happens after a
facet failure. -/
theorem facet_failure_propagates :
    (∀ (e : String → Except Unit (List ℚ))
      (st : String → List ℚ → Option QFilter → ℕ → ℚ →
        Except Unit (List Hit))
      (pq : ParsedQuery) (l : ℕ) (rk : Bool) (v : List ℚ),
      e pq.search_intent = Except.ok v →
      (∃ p ∈ WEIGHTS,
        st p.1 v (build_filter pq.filters) (l * 2) (3/10)
          = Except.error ()) →
      search e st pq l rk = Except.error ()) ∧
    (∀ (e : String → Except Unit (List ℚ))
      (st : String → List ℚ → Option QFilter → ℕ → ℚ →
        Except Unit (List Hit))
      (pq : ParsedQuery) (l : ℕ) (rk : Bool) (res : List Cand),
      search e st pq l rk = Except.ok res →
      ∃ v, e pq.search_intent = Except.ok v ∧
        ∀ p ∈ WEIGHTS, ∃ hits,
          st p.1 v (build_filter pq.filters) (l * 2) (3/10)
            = Except.ok hits) := by
  constructor
  · intro e st pq l rk v he hfail
    unfold search
    rw [he]
    simp only [Bind.bind, Except.bind]
    rw [runFacets_error_of_mem WEIGHTS hfail]
  · intro e st pq l rk res h
    obtain ⟨v, rs, he, hr, -⟩ := search_ok_elim h
    exact ⟨v, he, runFacets_ok_all WEIGHTS rs hr⟩

/-- A concrete vector-store oracle whose skills-facet query raises while the
other facets return hits. -/
def storeFailSkills : String → List ℚ → Option QFilter → ℕ → ℚ →
    Except Unit (List Hit) := fun n _ _ _ _ =>
  if n = "skills" then Except.error ()
  else Except.ok [⟨1, 2/5, payload0⟩]

/-- Witness for `facet_failure_propagates`: a failure on the skills facet —
not the first one queried — aborts the concrete search call. -/
theorem facet_failure_propagates_witness :
    (embedC pq0.search_intent = Except.ok [1] ∧
      ("skills", (3 : ℚ)/10) ∈ WEIGHTS ∧
      storeFailSkills "skills" [1] (build_filter pq0.filters) (5 * 2) (3/10)
        = Except.error ()) ∧
    search embedC storeFailSkills pq0 5 false = Except.error () :=
  ⟨⟨rfl, List.mem_cons_of_mem _ (List.mem_cons_self _ _), rfl⟩,
    facet_failure_propagates.1 embedC storeFailSkills pq0 5 false [1] rfl
      ⟨("skills", (3 : ℚ)/10),
        List.mem_cons_of_mem _ (List.mem_cons_self _ _), rfl⟩⟩

/-! ## `GeminiEmbedder.embed_single`
(`scripts/core/gemini_embedder_prod.py`, lines 158–217) and
`IntelligentSearchEngine._embed_query`
(`scripts/core/intelligent_search.py`, lines 76–82).

`svc` models the `client.models.embed_content` call; the three retry
attempts of `embed_single` hit the same deterministic oracle, so they are
collapsed into one consultation. The Bool in the result records whether the
external embedding service was consulted at all. -/

/-- `GeminiEmbedder.embed_single(text)` with `use_fallback_on_error=False`
(the default): empty/whitespace-only text short-circuits to `[]` without
calling the service; long text is truncated to 10000 characters; a failing
or non-validating response yields `[]` after the retries. -/
def embed_single (svc : String → Option (List ℚ)) (text : String) :
    Bool × List ℚ :=
  if text.data.all (fun c => c.isWhitespace) then (false, [])
  else
    let t := if text.length > 10000 then ⟨text.data.take 10000⟩ else text
    match svc t with
    | some v => if 1 ≤ v.length then (true, v) else (true, [])
    | none => (true, [])

/-- `IntelligentSearchEngine._embed_query(text)`: calls
`client.models.embed_content` unconditionally — no empty-text check. -/
def embed_query (svc : String → Except Unit (List ℚ)) (text : String) :
    Bool × Except Unit (List ℚ) :=
  (true, svc text)

/-- An embedding oracle that raises exactly on the empty string. -/
def embedFailOnEmpty : String → Except Unit (List ℚ) := fun s =>
  if s = "" then Except.error () else Except.ok [1]

/-- The empty parsed query (Scenario E of the spec). -/
def pqEmpty : ParsedQuery := ⟨"", Filters.empty⟩

/-- C8 counterexample: the search engine's embedding step does consult the
service on the empty query (`_embed_query` has no short-circuit), and when
that call raises, `search` on the empty query raises instead of returning
zero candidates. -/
theorem empty_query_not_short_circuited :
    (embed_query embedFailOnEmpty "").1 = true ∧
    embed_query embedFailOnEmpty "" = (true, Except.error ()) ∧
    search embedFailOnEmpty storeC pqEmpty 20 true = Except.error () := by
  refine ⟨rfl, rfl, ?_⟩
  unfold search
  simp [pqEmpty, embedFailOnEmpty, Bind.bind, Except.bind]

/-- C8 amended: `GeminiEmbedder.embed_single` does short-circuit on
empty/whitespace-only text, returning `[]` without calling the service; but
`IntelligentSearchEngine._embed_query` — the embedding operation on the live
search path — always calls the service, so an empty-query search consults
the service and propagates its failure. -/
theorem embed_short_circuit_contract :
    (∀ (svc : String → Option (List ℚ)) (t : String),
      t.data.all (fun c => c.isWhitespace) = true →
      embed_single svc t = (false, [])) ∧
    (∀ (svc : String → Except Unit (List ℚ)) (t : String),
      (embed_query svc t).1 = true) ∧
    (∀ (e : String → Except Unit (List ℚ))
      (st : String → List ℚ → Option QFilter → ℕ → ℚ →
        Except Unit (List Hit))
      (pq : ParsedQuery) (l : ℕ) (rk : Bool),
      pq.search_intent = "" → e "" = Except.error () →
      search e st pq l rk = Except.error ()) := by
  refine ⟨?_, ?_, ?_⟩
  · intro svc t ht
    unfold embed_single
    rw [ht]
    rfl
  · intro svc t
    rfl
  · intro e st pq l rk hsi he
    unfold search
    rw [hsi, he]
    simp [Bind.bind, Except.bind]

/-- Witness for `embed_short_circuit_contract`: whitespace-only text yields
`(false, [])` from `embed_single`, and the empty-query search with a failing
embedding call raises. -/
theorem embed_short_circuit_contract_witness :
    (" ".data.all (fun c => c.isWhitespace) = true ∧
      embed_single (fun _ => some [1]) " " = (false, [])) ∧
    (pqEmpty.search_intent = "" ∧ embedFailOnEmpty "" = Except.error () ∧
      search embedFailOnEmpty storeC pqEmpty 7 false = Except.error ()) :=
  ⟨⟨by decide, embed_short_circuit_contract.1 (fun _ => some [1]) " "
      (by decide)⟩,
    ⟨rfl, rfl, embed_short_circuit_contract.2.2 embedFailOnEmpty storeC
      pqEmpty 7 false rfl rfl⟩⟩

/-! ## `GeminiQueryParser` (`scripts/core/query_parser.py`)

The backend calls plus `json.loads` are oracles: `g : Except Unit JVal` is
the outcome of the Gemini `generate_content` call composed with markdown
stripping and JSON decoding (`Except.error` = backend error or decode
failure), and `o : Option (Except Unit JVal)` likewise for the OpenAI
fallback (`none` = no OpenAI client configured). `_parse_relative_date`
reads `datetime.now()`, so it is abstracted as `pd : String → Option Int`.
Every statement inside the two `try` blocks of `parse` that can raise is
modelled in `Except`, and `parse` itself catches everything, mirroring the
source's `except` chains. -/

/-- A JSON value as produced by `json.loads`. -/
inductive JVal where
  | null
  | bool (b : Bool)
  | num (q : ℚ)
  | str (s : String)
  | arr (xs : List JVal)
  | obj (kvs : List (String × JVal))

/-- `d.get(k)` on an insertion-ordered dict. -/
def lookupKey (kvs : List (String × JVal)) (k : String) : Option JVal :=
  (kvs.find? (fun p => p.1 = k)).map Prod.snd

/-- `k in d`. -/
def hasKey (kvs : List (String × JVal)) (k : String) : Bool :=
  kvs.any (fun p => p.1 = k)

/-- `d[k] = v`: update in place when present, else append (insertion
order). -/
def setKey (kvs : List (String × JVal)) (k : String) (v : JVal) :
    List (String × JVal) :=
  if kvs.any (fun p => p.1 = k) then
    kvs.map (fun p => if p.1 = k then (k, v) else p)
  else kvs ++ [(k, v)]

/-- `d.pop(k, None)` restricted to its effect on the dict. -/
def popKey (kvs : List (String × JVal)) (k : String) :
    List (String × JVal) :=
  kvs.filter (fun p => p.1 ≠ k)

/-- Python truthiness of a JSON value. -/
def jTruthy : JVal → Bool
  | .null => false
  | .bool b => b
  | .num q => q ≠ 0
  | .str s => s ≠ ""
  | .arr xs => !xs.isEmpty
  | .obj kvs => !kvs.isEmpty

/-- Whether `', '.join(v)` succeeds: it needs an iterable of strings (a
string, a list of strings, or a dict — whose keys, all strings here, are
iterated). -/
def joinable : JVal → Bool
  | .str _ => true
  | .arr xs => xs.all (fun v => match v with | .str _ => true | _ => false)
  | .obj _ => true
  | _ => false

/-- The logging line `logger.info(f"... {', '.join(filters[k])}")` guarded
by `if filters.get(k):`: raises (TypeError) when the value is truthy but
not joinable. -/
def checkJoin (fs : List (String × JVal)) (k : String) : Except Unit Unit :=
  match lookupKey fs k with
  | some v => if jTruthy v && !joinable v then Except.error () else Except.ok ()
  | none => Except.ok ()

/-- `GeminiQueryParser._process_parsed_filters` (lines 396–428), which is
also the inline post-processing of the Gemini success path (lines 317–343):
log the list-valued fields (a truthy non-joinable value raises), then
convert a truthy `application_date` via `_parse_relative_date` — setting
`min_date_applied` only when the timestamp is truthy, and popping
`application_date` only inside the truthy branch. -/
def process_parsed_filters (pd : String → Option Int)
    (fs : List (String × JVal)) : Except Unit (List (String × JVal)) := do
  let _ ← checkJoin fs "required_skills"
  let _ ← checkJoin fs "seniority_keywords"
  let _ ← checkJoin fs "desired_job_titles"
  let _ ← checkJoin fs "target_companies"
  match lookupKey fs "application_date" with
  | some v =>
    if jTruthy v then
      match v with
      | .str s =>
        let fs1 := match pd s with
          | some ts =>
            if ts ≠ 0 then setKey fs "min_date_applied" (.num (ts : ℚ))
            else fs
          | none => fs
        pure (popKey fs1 "application_date")
      | _ => Except.error ()
    else pure fs
  | none => pure fs

/-- The shared shape of both backend success paths: validate the two
required top-level keys (raising `ValueError` otherwise, and any non-dict
response also ends in an exception), record `api_used`/`fallback_used`,
then post-process the `filters` sub-dict (which must be a dict, otherwise
`.get` raises `AttributeError`). -/
def processResponse (v : JVal) (api : String) (fb : Bool)
    (pd : String → Option Int) : Except Unit JVal :=
  match v with
  | .obj kvs =>
    if hasKey kvs "search_intent" && hasKey kvs "filters" then
      let kvs1 := setKey (setKey kvs "api_used" (.str api))
        "fallback_used" (.bool fb)
      match lookupKey kvs1 "filters" with
      | some (.obj fs) => do
        let fs2 ← process_parsed_filters pd fs
        pure (.obj (setKey kvs1 "filters" (.obj fs2)))
      | _ => Except.error ()
    else Except.error ()
  | _ => Except.error ()

/-- The Gemini attempt of `parse`: backend call + JSON decode (the oracle),
then the success-path processing; any raise is an `Except.error`. -/
def attempt_gemini (g : Except Unit JVal) (pd : String → Option Int) :
    Except Unit JVal :=
  match g with
  | .error e => .error e
  | .ok v => processResponse v "gemini" false pd

/-- The OpenAI fallback attempt (`_parse_with_openai` followed by
`_process_parsed_filters`); `none` models `self.openai_client is None`. -/
def attempt_openai (o : Option (Except Unit JVal))
    (pd : String → Option Int) : Except Unit JVal :=
  match o with
  | none => .error ()
  | some (.error e) => .error e
  | some (.ok v) => processResponse v "openai" true pd

/-- `GeminiQueryParser._empty_filters_response` (lines 430–448). -/
def empty_filters_response (q : String) : JVal :=
  .obj [("search_intent", .str q),
        ("filters", .obj
          [("min_experience", .null), ("max_experience", .null),
           ("location", .null), ("education_level", .null),
           ("required_skills", .null), ("seniority_keywords", .null),
           ("desired_job_titles", .null), ("target_companies", .null),
           ("min_date_applied", .null)]),
        ("api_used", .str "none"),
        ("fallback_used", .bool true),
        ("fallback_reason", .str "Both Gemini and OpenAI failed")]

/-- `GeminiQueryParser.parse` (lines 251–394): try Gemini; on any failure
try OpenAI (when configured); on total failure return the degraded
response. -/
def parse (g : Except Unit JVal) (o : Option (Except Unit JVal))
    (pd : String → Option Int) (q : String) : JVal :=
  match attempt_gemini g pd with
  | .ok v => v
  | .error _ =>
    match attempt_openai o pd with
    | .ok v => v
    | .error _ => empty_filters_response q

/-- Top-level key access on a parse result. -/
def topKeyOf (v : JVal) (k : String) : Option JVal :=
  match v with
  | .obj kvs => lookupKey kvs k
  | _ => none

/-- Top-level key presence on a parse result. -/
def hasTopKey (v : JVal) (k : String) : Bool :=
  match v with
  | .obj kvs => hasKey kvs k
  | _ => false

/-- The keys of the `filters` record of a parse result, in order. -/
def filtersKeys (v : JVal) : List String :=
  match topKeyOf v "filters" with
  | some (.obj fs) => fs.map Prod.fst
  | _ => []

/-- A field of the `filters` record of a parse result. -/
def filterVal (v : JVal) (k : String) : Option JVal :=
  match topKeyOf v "filters" with
  | some (.obj fs) => lookupKey fs k
  | _ => none

/-- `v is null`. -/
def isNullJ : JVal → Bool
  | .null => true
  | _ => false

/-- The nine documented `filters` keys of the ParsedQuery contract. -/
def documentedFilterKeys : List String :=
  ["min_experience", "max_experience", "location", "education_level",
   "required_skills", "seniority_keywords", "desired_job_titles",
   "target_companies", "min_date_applied"]

theorem hasKey_setKey_of (kvs : List (String × JVal)) (k k' : String)
    (v : JVal) (h : hasKey kvs k = true) :
    hasKey (setKey kvs k' v) k = true := by
  unfold setKey
  unfold hasKey at h ⊢
  split
  · rw [List.any_eq_true] at h ⊢
    obtain ⟨p, hp, hpk⟩ := h
    simp only [decide_eq_true_eq] at hpk
    refine ⟨if p.1 = k' then (k', v) else p,
      List.mem_map.mpr ⟨p, hp, rfl⟩, ?_⟩
    by_cases hc : p.1 = k'
    · have hk : k' = k := hc.symm.trans hpk
      rw [if_pos hc]
      simp [hk]
    · rw [if_neg hc]
      simp [hpk]
  · rw [List.any_eq_true] at h ⊢
    obtain ⟨p, hp, hpk⟩ := h
    exact ⟨p, List.mem_append_left _ hp, hpk⟩

theorem processResponse_ok_keys {v : JVal} {api : String} {fb : Bool}
    {pd : String → Option Int} {w : JVal}
    (h : processResponse v api fb pd = Except.ok w) :
    hasTopKey w "search_intent" = true ∧ hasTopKey w "filters" = true := by
  cases v with
  | obj kvs =>
    simp only [processResponse] at h
    by_cases hval : (hasKey kvs "search_intent" && hasKey kvs "filters")
        = true
    · rw [if_pos hval] at h
      rw [Bool.and_eq_true] at hval
      cases hl : lookupKey (setKey (setKey kvs "api_used" (.str api))
          "fallback_used" (.bool fb)) "filters" with
      | none => rw [hl] at h; cases h
      | some fv =>
        rw [hl] at h
        cases fv with
        | obj fs =>
          cases hp : process_parsed_filters pd fs with
          | error e =>
            simp only [Bind.bind, Except.bind, hp] at h
            cases h
          | ok fs2 =>
            simp only [Bind.bind, Except.bind, hp, Pure.pure, Except.pure,
              Except.ok.injEq] at h
            subst h
            constructor
            · exact hasKey_setKey_of _ _ _ _
                (hasKey_setKey_of _ _ _ _
                  (hasKey_setKey_of _ _ _ _ hval.1))
            · exact hasKey_setKey_of _ _ _ _
                (hasKey_setKey_of _ _ _ _
                  (hasKey_setKey_of _ _ _ _ hval.2))
        | null => cases h
        | bool b => cases h
        | num q => cases h
        | str s => cases h
        | arr xs => cases h
    · rw [if_neg hval] at h
      cases h
  | null => simp [processResponse] at h
  | bool b => simp [processResponse] at h
  | num q => simp [processResponse] at h
  | str s => simp [processResponse] at h
  | arr xs => simp [processResponse] at h

/-- C2: `parse` is total over all backend outcomes (the embedding is a plain
function, mirroring the source's catch-all `except` chains) and always
returns a dict with the two top-level keys; when the Gemini attempt fails it
returns whatever the OpenAI attempt produces; and when both attempts fail it
returns the degraded response: `search_intent` is the raw query, all nine
filter fields are null, and the result is flagged `fallback_used`. -/
theorem parse_fallback_contract (g : Except Unit JVal)
    (o : Option (Except Unit JVal)) (pd : String → Option Int) (q : String) :
    (hasTopKey (parse g o pd q) "search_intent" = true ∧
      hasTopKey (parse g o pd q) "filters" = true) ∧
    (∀ v, attempt_gemini g pd = Except.error () →
      attempt_openai o pd = Except.ok v → parse g o pd q = v) ∧
    (attempt_gemini g pd = Except.error () →
      attempt_openai o pd = Except.error () →
      parse g o pd q = empty_filters_response q ∧
      topKeyOf (parse g o pd q) "search_intent" = some (JVal.str q) ∧
      filtersKeys (parse g o pd q) = documentedFilterKeys ∧
      (∀ k ∈ documentedFilterKeys,
        (filterVal (parse g o pd q) k).map isNullJ = some true) ∧
      topKeyOf (parse g o pd q) "fallback_used"
        = some (JVal.bool true)) := by
  refine ⟨?_, ?_, ?_⟩
  · cases hg : attempt_gemini g pd with
    | ok v =>
      have hpv : parse g o pd q = v := by
        unfold parse
        rw [hg]
      rw [hpv]
      unfold attempt_gemini at hg
      cases g with
      | error e => simp at hg
      | ok v0 => exact processResponse_ok_keys hg
    | error e =>
      cases ho : attempt_openai o pd with
      | ok v =>
        have hpv : parse g o pd q = v := by
          unfold parse
          rw [hg, ho]
        rw [hpv]
        unfold attempt_openai at ho
        cases o with
        | none => simp at ho
        | some r =>
          cases r with
          | error e2 => simp at ho
          | ok v0 => exact processResponse_ok_keys ho
      | error e2 =>
        have hpv : parse g o pd q = empty_filters_response q := by
          unfold parse
          rw [hg, ho]
        rw [hpv]
        exact ⟨rfl, rfl⟩
  · intro v hg ho
    unfold parse
    rw [hg, ho]
  · intro hg ho
    have hpv : parse g o pd q = empty_filters_response q := by
      unfold parse
      rw [hg, ho]
    rw [hpv]
    refine ⟨rfl, rfl, rfl, ?_, rfl⟩
    intro k hk
    fin_cases hk <;> rfl

/-- Witness for `parse_fallback_contract`: both backends failing on a
concrete query yields exactly the degraded response. -/
theorem parse_fallback_contract_witness :
    (attempt_gemini (Except.error ()) (fun _ => none) = Except.error () ∧
      attempt_openai none (fun _ => none) = Except.error ()) ∧
    parse (Except.error ()) none (fun _ => none) "find civil engineers"
      = empty_filters_response "find civil engineers" :=
  ⟨⟨rfl, rfl⟩,
    ((parse_fallback_contract (Except.error ()) none (fun _ => none)
      "find civil engineers").2.2 rfl rfl).1⟩

/-- The `filters` sub-dict exactly as the prompt instructs the backends to
produce it (its ninth key is `application_date`, not `min_date_applied`),
with every field null. -/
def promptShapeFilters : List (String × JVal) :=
  [("min_experience", .null), ("max_experience", .null),
   ("location", .null), ("education_level", .null),
   ("required_skills", .null), ("seniority_keywords", .null),
   ("desired_job_titles", .null), ("target_companies", .null),
   ("application_date", .null)]

/-- A Gemini response following the prompt's documented JSON shape, with no
extractable filters (all null). -/
def gWellShaped : Except Unit JVal :=
  .ok (.obj [("search_intent", .str "civil engineer with AutoCAD experience"),
             ("filters", .obj promptShapeFilters)])

/-- C1 counterexample: a successful primary-backend parse whose response
follows the prompt's shape with `application_date: null` yields a `filters`
record that still contains `application_date` and lacks `min_date_applied` —
not the nine documented keys (the conversion and `pop` happen only when
`application_date` is truthy). -/
theorem filters_keys_counterexample :
    topKeyOf (parse gWellShaped none (fun _ => none) "Civil engineer")
        "api_used" = some (JVal.str "gemini") ∧
    filtersKeys (parse gWellShaped none (fun _ => none) "Civil engineer")
      = ["min_experience", "max_experience", "location", "education_level",
         "required_skills", "seniority_keywords", "desired_job_titles",
         "target_companies", "application_date"] ∧
    (filtersKeys (parse gWellShaped none (fun _ => none) "Civil engineer")
      ).contains "min_date_applied" = false ∧
    filtersKeys (parse gWellShaped none (fun _ => none) "Civil engineer")
      ≠ documentedFilterKeys :=
  ⟨rfl, rfl, by decide, by decide⟩

/-- A `_parse_relative_date` oracle with a fixed current time. -/
def pdFixed : String → Option Int := fun _ => some 1700000000

/-- A Gemini response in the prompt's shape whose `application_date` is the
truthy, parseable string `"recent"`. -/
def gGoodDate : Except Unit JVal :=
  .ok (.obj [("search_intent", .str "marketing manager"),
             ("filters", .obj
               [("min_experience", .null), ("max_experience", .null),
                ("location", .null), ("education_level", .null),
                ("required_skills", .null), ("seniority_keywords", .null),
                ("desired_job_titles", .null), ("target_companies", .null),
                ("application_date", .str "recent")])])

/-- C1 amended: the exactly-nine-documented-keys guarantee holds on the
degraded last-resort path (all nine null), and on a backend path it holds
when `application_date` comes back truthy and parseable (the conversion
replaces it with `min_date_applied`); a backend response with
`application_date: null` instead keeps the prompt's key set. -/
theorem parse_filter_keys_amended (g : Except Unit JVal)
    (o : Option (Except Unit JVal)) (pd : String → Option Int) (q : String)
    (hg : attempt_gemini g pd = Except.error ())
    (ho : attempt_openai o pd = Except.error ()) :
    (filtersKeys (parse g o pd q) = documentedFilterKeys ∧
      ∀ k ∈ documentedFilterKeys,
        (filterVal (parse g o pd q) k).map isNullJ = some true) ∧
    filtersKeys (parse gGoodDate none pdFixed "recent marketing applicants")
      = documentedFilterKeys := by
  have hpv : parse g o pd q = empty_filters_response q := by
    unfold parse
    rw [hg, ho]
  rw [hpv]
  refine ⟨⟨rfl, ?_⟩, rfl⟩
  intro k hk
  fin_cases hk <;> rfl

/-- Witness for `parse_filter_keys_amended`: a failed Gemini decode and a
failed OpenAI fallback give the degraded response with exactly the nine
documented filter keys. -/
theorem parse_filter_keys_amended_witness :
    (attempt_gemini (Except.error ()) pdFixed = Except.error () ∧
      attempt_openai (some (Except.error ())) pdFixed = Except.error ()) ∧
    filtersKeys (parse (Except.error ()) (some (Except.error ())) pdFixed
      "who applied recently") = documentedFilterKeys :=
  ⟨⟨rfl, rfl⟩,
    ((parse_filter_keys_amended (Except.error ()) (some (Except.error ()))
      pdFixed "who applied recently" rfl rfl).1).1⟩

/-! ## `MatchExplainer.explain`
(`scripts/core/match_explainer.py`, lines 14–158).

`explain` reads only its two arguments and builds a fresh result dict; it
performs no I/O and no external calls. CPython's decimal rendering of floats
(`round(x, n)` and `f"{x:.nf}"`) is modelled by the fixed deterministic
helpers `roundTo`/`fmtFixed` below. -/

/-- Left-pad a digit string with zeros to width `d`. -/
def padLeftZeros (d : ℕ) (s : String) : String :=
  if s.length < d then String.mk (List.replicate (d - s.length) '0') ++ s
  else s

/-- `round(q, d)` as a rational. -/
def roundTo (d : ℕ) (q : ℚ) : ℚ :=
  (((q * (10 : ℚ) ^ d + 1/2).floor : ℚ)) / (10 : ℚ) ^ d

/-- Fixed-point rendering of a rational with `d` decimal places, modelling
`f"{x:.df}"`. -/
def fmtFixed (d : ℕ) (q : ℚ) : String :=
  let scaled : ℤ := (q * (10 : ℚ) ^ d + 1/2).floor
  let sign := if scaled < 0 then "-" else ""
  let a := scaled.natAbs
  if d = 0 then sign ++ toString a
  else sign ++ toString (a / 10 ^ d) ++ "." ++
    padLeftZeros d (toString (a % 10 ^ d))

/-- `MatchExplainer._get_resume_snippet(payload)` (200-char cap). -/
def get_resume_snippet (p : Payload) : String :=
  let resume_text := p.resume_full_text
  if resume_text = "" then ""
  else if resume_text.length > 200 then ⟨resume_text.data.take 200⟩ ++ "..."
  else resume_text

/-- The `"candidate"` block of an explained result. -/
structure ExplainedCandidate where
  id : String
  name : String
  email : String
  job_title : String
  experience_years : ℚ
  tenure_years : ℚ
  location : String
  education : String
  current_company : String
  current_stage : String
  resume_url : String
  date_applied : Int
deriving DecidableEq, Repr

/-- The `"scores"` block of an explained result. -/
structure ExplainedScores where
  final_score : ℚ
  semantic_score : ℚ
  skills_match_score : ℚ
  vector_breakdown : List (String × ℚ)
deriving DecidableEq, Repr

/-- The result dict of `MatchExplainer.explain`. -/
structure ExplainedResult where
  candidate : ExplainedCandidate
  scores : ExplainedScores
  match_reasons : List String
  resume_snippet : String
deriving DecidableEq, Repr

/-- `MatchExplainer.explain(candidate, parsed_query)`. -/
def explain (c : Cand) (pq : ParsedQuery) : ExplainedResult :=
  let p := c.payload
  let f := pq.filters
  let exp := p.total_years_experience
  let reasonsMinExp : List String :=
    match f.min_experience with
    | some min_exp =>
      if exp ≥ min_exp then
        let years_over := exp - min_exp
        [s!"✓ {fmtFixed 1 exp} years experience (exceeds {fmtFixed 1 min_exp}+ requirement by {fmtFixed 1 years_over} years)"]
      else
        [s!"⚠ {fmtFixed 1 exp} years experience (below {fmtFixed 1 min_exp}+ requirement)"]
    | none => []
  let reasonsMaxExp : List String :=
    match f.max_experience with
    | some max_exp =>
      if exp ≤ max_exp then
        [s!"✓ {fmtFixed 1 exp} years experience (within 0-{fmtFixed 1 max_exp} range)"]
      else
        [s!"⚠ {fmtFixed 1 exp} years experience (above {fmtFixed 1 max_exp} maximum)"]
    | none => []
  let reasonsLocation : List String :=
    match f.location with
    | some required_location =>
      if required_location ≠ "" then
        if strContains p.location required_location then
          [s!"✓ Located in {p.location}"]
        else
          [s!"⚠ Located in {p.location} (requested: {required_location})"]
      else []
    | none => []
  let reasonsEducation : List String :=
    match f.education_level with
    | some required_edu =>
      if required_edu ≠ "" then
        if p.education_level = required_edu then
          [s!"✓ {p.education_level} (matches requirement)"]
        else
          [s!"⚠ {p.education_level} (requested: {required_edu})"]
      else []
    | none => []
  let reasonsSkills : List String :=
    if truthyList f.required_skills then
      let required := f.required_skills.getD []
      let skills_text := pyLower p.skills_extracted
      let matched_skills :=
        required.filter (fun skill => strContains skills_text (pyLower skill))
      let missing_skills :=
        required.filter (fun skill =>
          !strContains skills_text (pyLower skill))
      (if matched_skills ≠ [] then
        let joined := String.intercalate ", " matched_skills
        [s!"✓ Has required skills: {joined}"]
      else []) ++
      (if missing_skills ≠ [] then
        let joined := String.intercalate ", " missing_skills
        [s!"⚠ Missing skills: {joined}"]
      else [])
    else []
  let reasonsSeniority : List String :=
    if truthyList f.seniority_keywords then
      let keywords := f.seniority_keywords.getD []
      let job_title_lower := pyLower p.job_title
      let seniority_found :=
        keywords.filter (fun kw => strContains job_title_lower (pyLower kw))
      if seniority_found ≠ [] then
        let joined := String.intercalate ", " seniority_found
        [s!"✓ Seniority level: {joined} position"]
      else []
    else []
  let reasonsTitle : List String :=
    if p.job_title ≠ "" then [s!"📋 Current role: {p.job_title}"] else []
  let reasonsSemantic : List String :=
    if c.semantic_score ≥ 7/10 then
      [s!"🎯 Strong semantic match (score: {fmtFixed 2 c.semantic_score})"]
    else if c.semantic_score ≥ 1/2 then
      [s!"🎯 Good semantic match (score: {fmtFixed 2 c.semantic_score})"]
    else
      [s!"🎯 Moderate semantic match (score: {fmtFixed 2 c.semantic_score})"]
  { candidate :=
      { id := p.id, name := p.full_name, email := p.email,
        job_title := p.job_title,
        experience_years := p.total_years_experience,
        tenure_years := p.longest_tenure_years, location := p.location,
        education := p.education_level,
        current_company := p.current_company,
        current_stage := p.current_stage, resume_url := p.resume_url,
        date_applied := p.date_applied },
    scores :=
      { final_score := roundTo 3 c.final_score,
        semantic_score := roundTo 3 c.semantic_score,
        skills_match_score := roundTo 2 c.skills_match_score,
        vector_breakdown :=
          c.vector_scores.map (fun v => (v.1, roundTo 3 v.2)) },
    match_reasons :=
      reasonsMinExp ++ reasonsMaxExp ++ reasonsLocation ++
      reasonsEducation ++ reasonsSkills ++ reasonsSeniority ++
      reasonsTitle ++ reasonsSemantic,
    resume_snippet := get_resume_snippet p }

/-- C9: `explain` is a pure, deterministic function of the
`(candidate, parsed_query)` pair — its embedding is a plain function with
no state, and equal inputs give identical output. -/
theorem explain_pure (c₁ c₂ : Cand) (q₁ q₂ : ParsedQuery)
    (hc : c₁ = c₂) (hq : q₁ = q₂) :
    explain c₁ q₁ = explain c₂ q₂ := by
  rw [hc, hq]

/-- A concrete ranked candidate for the explainer witness. -/
def cand0 : Cand :=
  ⟨1, 2/5, [("resume", 2/5)], payload0, 0, 2/5⟩

/-- Witness for `explain_pure`: two calls on the same concrete pair agree. -/
theorem explain_pure_witness :
    (cand0 = cand0 ∧ pq0 = pq0) ∧ explain cand0 pq0 = explain cand0 pq0 :=
  ⟨⟨rfl, rfl⟩, explain_pure cand0 cand0 pq0 pq0 rfl rfl⟩
